import Mathlib

/-!
Shallow embedding of the `mingle` post-interaction service
(routes/post and routes/topic plus models/Post), covering the status
resolver, the vote engine (like/dislike routes), the comment route, the
topic ranking queries, and the creation-time expiration computation.

Timestamps are modelled as integers (milliseconds, as in `Date.now()`),
user ids as strings (the string form of a Mongo ObjectId), and counters
as integers (JS numbers holding integral values).
-/

/-- Lifecycle status of a post: the `status` enum of the Post schema. -/
inductive Status where
  | Live
  | Expired
deriving DecidableEq, Repr

/-- An embedded comment record (`CommentSchema` in models/Post.js): a user
snapshot `{userId, name}`, the trimmed text, and the creation time. -/
structure Comment where
  userId : String
  userName : String
  text : String
  createdAt : Int
deriving DecidableEq, Repr

/-- A post record (`PostSchema` in models/Post.js), restricted to the fields
the interaction engine and the ranking queries read or write. `likedBy` and
`dislikedBy` are the Mongo arrays of voter ids; `likesCount` and
`dislikesCount` the cached counters; `owner` the owner's userId string. -/
structure Post where
  owner : String
  topics : List String
  createdAt : Int
  expiresAt : Int
  status : Status
  likesCount : Int
  dislikesCount : Int
  likedBy : List String
  dislikedBy : List String
  comments : List Comment
deriving DecidableEq, Repr

/-- The fixed topic enumeration (`TOPICS` in the route files). -/
def TOPICS : List String := ["Politics", "Health", "Sport", "Tech"]

/-- Function `computeStatus` from routes/post: `Date.now() < expiresAt` gives Live,
otherwise Expired.  The same comparison is performed by the pre-save hook of
the Post schema. -/
def computeStatus (expiresAt now : Int) : Status :=
  if now < expiresAt then .Live else .Expired

/-- Function `refreshPostStatusIfNeeded`: recompute the status from `expiresAt` and
store it on the post (the save-if-changed is observationally the same as
always storing the freshly computed value). -/
def refreshStatus (p : Post) (now : Int) : Post :=
  { p with status := computeStatus p.expiresAt now }

/-- Outcome of a like/dislike request once the post has been fetched:
the error responses of the route (403 self-vote, 403 expired,
409 duplicate) or the 200 payload `{likesCount, dislikesCount}`. -/
inductive VoteOutcome where
  | selfVote
  | expired
  | duplicate
  | ok (likesCount dislikesCount : Int)
deriving DecidableEq, Repr

/-- The like route body (routes/post, `POST /:id/like`) after id validation
and lookup, returning the outcome together with the stored post state.
Checks mirror the source order: owner self-vote first, then the status
refresh and the expiry gate (the gate reads the freshly computed status,
which `refreshStatus` stores), then the duplicate check, then the toggle
(remove an opposite dislike, flooring the counter at 0) and the insertion. -/
def applyLike (p : Post) (u : String) (now : Int) : VoteOutcome × Post :=
  if u = p.owner then (.selfVote, p)
  else if computeStatus p.expiresAt now ≠ .Live then (.expired, refreshStatus p now)
  else if u ∈ p.likedBy then (.duplicate, refreshStatus p now)
  else
    let q := refreshStatus p now
    let q :=
      if u ∈ q.dislikedBy then
        { q with dislikedBy := q.dislikedBy.filter (· != u),
                 dislikesCount := max 0 (q.dislikesCount - 1) }
      else q
    let q := { q with likedBy := q.likedBy ++ [u],
                      likesCount := q.likesCount + 1 }
    (.ok q.likesCount q.dislikesCount, q)

/-- The dislike route body (routes/post, `POST /:id/dislike`), mirror image
of `applyLike`. -/
def applyDislike (p : Post) (u : String) (now : Int) : VoteOutcome × Post :=
  if u = p.owner then (.selfVote, p)
  else if computeStatus p.expiresAt now ≠ .Live then (.expired, refreshStatus p now)
  else if u ∈ p.dislikedBy then (.duplicate, refreshStatus p now)
  else
    let q := refreshStatus p now
    let q :=
      if u ∈ q.likedBy then
        { q with likedBy := q.likedBy.filter (· != u),
                 likesCount := max 0 (q.likesCount - 1) }
      else q
    let q := { q with dislikedBy := q.dislikedBy ++ [u],
                      dislikesCount := q.dislikesCount + 1 }
    (.ok q.likesCount q.dislikesCount, q)

/-- A vote request kind: which of the two vote routes is hit. -/
inductive VoteKind where
  | like
  | dislike
deriving DecidableEq, Repr

/-- The stored post state after one like or dislike request by user `u` at
time `now` (whether the request succeeded or failed). -/
def voteStep (p : Post) (op : VoteKind × String × Int) : Post :=
  match op with
  | (.like, u, now) => (applyLike p u now).2
  | (.dislike, u, now) => (applyDislike p u now).2

/-- The stored post state after a sequence of like/dislike requests. -/
def runVotes (p : Post) (ops : List (VoteKind × String × Int)) : Post :=
  ops.foldl voteStep p

/-- Well-formedness of a post's vote state: `likedBy` and `dislikedBy`
represent sets (no duplicates, as the data model declares them), the cached
counters match the set sizes (I1), the two sets are disjoint (I2), and the
owner appears in neither (I3). -/
def PostInv (p : Post) : Prop :=
  p.likedBy.Nodup ∧ p.dislikedBy.Nodup ∧
  p.likesCount = (p.likedBy.length : Int) ∧
  p.dislikesCount = (p.dislikedBy.length : Int) ∧
  (∀ u ∈ p.likedBy, u ∉ p.dislikedBy) ∧
  p.owner ∉ p.likedBy ∧ p.owner ∉ p.dislikedBy

instance (p : Post) : Decidable (PostInv p) := by
  unfold PostInv; infer_instance

/-- Function `toInt` from routes/post: `Number.parseInt` with a fallback when the
result is not finite.  The parse is modelled by an `Option Int`: `none`
stands for a missing or unparseable value (`parseInt` returning NaN). -/
def toInt (value : Option Int) (fallback : Int) : Int :=
  match value with
  | some n => n
  | none => fallback

/-- Result of resolving the expiration input of the create route. -/
inductive ExpirationResult where
  | invalidMinutes
  | ok (expiresAt : Int)
deriving DecidableEq, Repr

/-- The expiration computation of the create route (routes/post, `POST /`):
a supplied `expiresAt` wins; otherwise `expiresInMinutes` is parsed with
fallback 60 and range-checked against `[1, 10080]`, and the expiration is
`now + mins * 60 * 1000`. -/
def resolveExpiresAt (expiresAtRaw expiresInMinutes : Option Int)
    (now : Int) : ExpirationResult :=
  match expiresAtRaw with
  | some e => .ok e
  | none =>
    let mins := toInt expiresInMinutes 60
    if mins < 1 ∨ mins > 60 * 24 * 7 then .invalidMinutes
    else .ok (now + mins * 60 * 1000)

/-- JavaScript `String.prototype.trim`: drop whitespace from both ends,
modelled directly over the character list. -/
def jsTrim (s : String) : String :=
  ⟨(((s.data.dropWhile Char.isWhitespace).reverse.dropWhile
      Char.isWhitespace).reverse)⟩

/-- Outcome of a comment request once the post has been fetched (routes/post,
`POST /:id/comments`): 400 text validation, 403 expired, or the 201 payload
with the new comment count and the appended record. -/
inductive CommentOutcome where
  | validationError
  | expired
  | ok (count : Nat) (c : Comment)
deriving DecidableEq, Repr

/-- The comment route body after id validation and lookup: trim the text and
check `1 ≤ length ≤ 500`, refresh the status and gate on Live, then push a
comment record `{user, text, createdAt: now}`.  Returns the outcome and the
stored post state. -/
def appendComment (p : Post) (uId uName text : String) (now : Int) :
    CommentOutcome × Post :=
  let t := jsTrim text
  if t.length < 1 ∨ t.length > 500 then (.validationError, p)
  else if computeStatus p.expiresAt now ≠ .Live then (.expired, refreshStatus p now)
  else
    let c : Comment := ⟨uId, uName, t, now⟩
    let q := refreshStatus p now
    let q := { q with comments := q.comments ++ [c] }
    (.ok q.comments.length c, q)

/-- Hexadecimal digit test used by the ObjectId shape check. -/
def isHexChar (c : Char) : Bool :=
  c.isDigit || (decide ('a' ≤ c) && decide (c ≤ 'f')) ||
    (decide ('A' ≤ c) && decide (c ≤ 'F'))

/-- Modelled from the library the routes call: `mongoose.isValidObjectId`
accepts a 24-character hexadecimal string (or a 12-character raw string). -/
def isValidObjectId (id : String) : Bool :=
  id.length == 12 || (id.length == 24 && id.toList.all isHexChar)

/-- Result of a like/dislike route, id validation and lookup included. -/
inductive VoteRouteResult where
  | invalidId
  | notFound
  | done (v : VoteOutcome)
deriving DecidableEq, Repr

/-- Result of the comment route, id validation and lookup included. -/
inductive CommentRouteResult where
  | invalidId
  | notFound
  | done (c : CommentOutcome)
deriving DecidableEq, Repr

/-- The full like route: id shape check first, then the store lookup
(`findById`, with `none` for a missing post), then the vote engine. -/
def likeRoute (id : String) (store : Option Post) (u : String)
    (now : Int) : VoteRouteResult :=
  if !isValidObjectId id then .invalidId
  else
    match store with
    | none => .notFound
    | some p => .done (applyLike p u now).1

/-- The full dislike route, mirror image of `likeRoute`. -/
def dislikeRoute (id : String) (store : Option Post) (u : String)
    (now : Int) : VoteRouteResult :=
  if !isValidObjectId id then .invalidId
  else
    match store with
    | none => .notFound
    | some p => .done (applyDislike p u now).1

/-- The full comment route: id shape check first, then the text validation
(which the source performs before the store lookup), then the lookup and the
comment appender. -/
def commentRoute (id : String) (store : Option Post) (uId uName text : String)
    (now : Int) : CommentRouteResult :=
  if !isValidObjectId id then .invalidId
  else if (jsTrim text).length < 1 ∨ (jsTrim text).length > 500 then
    .done .validationError
  else
    match store with
    | none => .notFound
    | some p => .done (appendComment p uId uName text now).1

/-- The effective limit of the expired-history route (routes/topic,
`GET /:topic/expired`): `Math.min(limit, 50)`. -/
def expiredHistoryLimit (limit : Int) : Int := min limit 50

/-- The effective skip of the expired-history route: `Math.max(skip, 0)`. -/
def expiredHistorySkip (skip : Int) : Int := max skip 0

/-- Modelled from the spec's words, for comparison with
`expiredHistoryLimit`: the supplied limit "clamped to `[0, 50]`". -/
def clampedLimitSpec (limit : Int) : Int := min (max limit 0) 50

/-- The Mongo sort key of the most-active query (routes/topic,
`GET /:topic/most-active`): `p` sorts strictly before `q` under
`{likesCount: -1, dislikesCount: -1, createdAt: -1}`. -/
def postBetter (p q : Post) : Bool :=
  decide (q.likesCount < p.likesCount) ||
  (decide (p.likesCount = q.likesCount) && decide (q.dislikesCount < p.dislikesCount)) ||
  (decide (p.likesCount = q.likesCount) && decide (p.dislikesCount = q.dislikesCount) &&
    decide (q.createdAt < p.createdAt))

/-- One step of the top-selection scan: keep the running best, replacing it
only when the new post sorts strictly before it. -/
def topStep (acc : Option Post) (p : Post) : Option Post :=
  match acc with
  | none => some p
  | some q => if postBetter p q then some p else some q

/-- Mongo `findOne` with a descending sort: a top element of the list under
`postBetter` (the earliest of the maximal elements). -/
def selectTop (ps : List Post) : Option Post :=
  ps.foldl topStep none

/-- Result of the most-active route. -/
inductive MostActiveResult where
  | validationError
  | notFound
  | ok (p : Post)
deriving DecidableEq, Repr

/-- The most-active route: validate the topic against the enumeration, then
select the top post among the posts tagged with the topic — with no filter
on status — under the likes/dislikes/createdAt sort. -/
def mostActive (topic : String) (posts : List Post) : MostActiveResult :=
  if topic ∉ TOPICS then .validationError
  else
    match selectTop (posts.filter (fun p => p.topics.contains topic)) with
    | none => .notFound
    | some p => .ok p

/-- The spec's most-active example, first post: 5 likes, 1 dislike, oldest. -/
def examplePost1 : Post :=
  { owner := "alice", topics := ["Tech"], createdAt := 1, expiresAt := 100,
    status := .Live, likesCount := 5, dislikesCount := 1,
    likedBy := ["u1", "u2", "u3", "u4", "u5"], dislikedBy := ["u6"],
    comments := [] }

/-- The spec's most-active example, second post: 5 likes, 2 dislikes. -/
def examplePost2 : Post :=
  { owner := "alice", topics := ["Tech"], createdAt := 2, expiresAt := 100,
    status := .Expired, likesCount := 5, dislikesCount := 2,
    likedBy := ["u1", "u2", "u3", "u4", "u5"], dislikedBy := ["u6", "u7"],
    comments := [] }

/-- The spec's most-active example, third post: 3 likes, 0 dislikes. -/
def examplePost3 : Post :=
  { owner := "alice", topics := ["Tech"], createdAt := 3, expiresAt := 100,
    status := .Live, likesCount := 3, dislikesCount := 0,
    likedBy := ["u1", "u2", "u3"], dislikedBy := [], comments := [] }

/-- A live post with no votes yet, used to instantiate theorems. -/
def alicePost : Post :=
  { owner := "alice", topics := ["Tech"], createdAt := 0, expiresAt := 100,
    status := .Live, likesCount := 0, dislikesCount := 0,
    likedBy := [], dislikedBy := [], comments := [] }

/-- A live post on which `bob` holds a like and `carol` a dislike. -/
def votedPost : Post :=
  { owner := "alice", topics := ["Tech"], createdAt := 0, expiresAt := 100,
    status := .Live, likesCount := 1, dislikesCount := 1,
    likedBy := ["bob"], dislikedBy := ["carol"], comments := [] }

/-- C6: the status resolver is a pure total function of `(expiresAt, now)`:
it returns Live exactly when `now < expiresAt`, and at the instant
`now = expiresAt` the post is Expired. -/
theorem computeStatus_live_iff (expiresAt now : Int) :
    (computeStatus expiresAt now = .Live ↔ now < expiresAt) ∧
      computeStatus expiresAt expiresAt = .Expired := by
  constructor
  · unfold computeStatus
    split
    · simpa
    · simp_all
  · simp [computeStatus]


/-- Removing one occurrence of a present element from a duplicate-free list
shortens it by exactly one. -/
theorem length_filter_ne_of_mem {l : List String} {u : String}
    (hn : l.Nodup) (hm : u ∈ l) :
    (l.filter (· != u)).length + 1 = l.length := by
  have h1 : l.erase u = l.filter (· != u) := hn.erase_eq_filter u
  have h2 : (l.erase u).length = l.length - 1 := List.length_erase_of_mem hm
  have h3 : 0 < l.length := List.length_pos_of_mem hm
  rw [h1] at h2
  omega

/-- Membership in the filtered list. -/
theorem mem_filter_ne {l : List String} {u v : String} :
    v ∈ l.filter (· != u) ↔ v ∈ l ∧ v ≠ u := by
  simp [List.mem_filter]

/-- One like request preserves the vote-state invariants. -/
theorem applyLike_inv (p : Post) (u : String) (now : Int) (h : PostInv p) :
    PostInv (applyLike p u now).2 := by
  obtain ⟨hnl, hnd, hcl, hcd, hdisj, hol, hod⟩ := h
  by_cases hown : u = p.owner
  · simpa [applyLike, hown, PostInv] using ⟨hnl, hnd, hcl, hcd, hdisj, hol, hod⟩
  · by_cases hst : computeStatus p.expiresAt now = .Live
    · by_cases hdup : u ∈ p.likedBy
      · simpa [applyLike, hown, hst, hdup, refreshStatus, PostInv] using
          ⟨hnl, hnd, hcl, hcd, hdisj, hol, hod⟩
      · by_cases hopp : u ∈ p.dislikedBy
        · simp [applyLike, hown, hst, hdup, hopp, refreshStatus, PostInv]
          refine ⟨?_, ?_, hcl, ?_, ?_, ⟨hol, fun e => hown e.symm⟩, ?_⟩
          · exact List.Nodup.append hnl (List.nodup_singleton u)
              (by simpa [List.disjoint_singleton] using hdup)
          · exact hnd.filter _
          · have h4 := length_filter_ne_of_mem hnd hopp
            have h5 : 0 < p.dislikedBy.length := List.length_pos_of_mem hopp
            rw [hcd]
            omega
          · intro v hv hvd
            rcases hv with hv | hv
            · exact absurd hvd (hdisj v hv)
            · exact hv
          · intro hmem
            exact absurd hmem hod
        · simp [applyLike, hown, hst, hdup, hopp, refreshStatus, PostInv]
          refine ⟨?_, hnd, hcl, hcd, ?_, ⟨hol, fun e => hown e.symm⟩, hod⟩
          · exact List.Nodup.append hnl (List.nodup_singleton u)
              (by simpa [List.disjoint_singleton] using hdup)
          · intro v hv
            rcases hv with hv | hv
            · exact hdisj v hv
            · exact hv ▸ hopp
    · simpa [applyLike, hown, hst, refreshStatus, PostInv] using
        ⟨hnl, hnd, hcl, hcd, hdisj, hol, hod⟩

/-- One dislike request preserves the vote-state invariants. -/
theorem applyDislike_inv (p : Post) (u : String) (now : Int) (h : PostInv p) :
    PostInv (applyDislike p u now).2 := by
  obtain ⟨hnl, hnd, hcl, hcd, hdisj, hol, hod⟩ := h
  by_cases hown : u = p.owner
  · simpa [applyDislike, hown, PostInv] using ⟨hnl, hnd, hcl, hcd, hdisj, hol, hod⟩
  · by_cases hst : computeStatus p.expiresAt now = .Live
    · by_cases hdup : u ∈ p.dislikedBy
      · simpa [applyDislike, hown, hst, hdup, refreshStatus, PostInv] using
          ⟨hnl, hnd, hcl, hcd, hdisj, hol, hod⟩
      · by_cases hopp : u ∈ p.likedBy
        · simp [applyDislike, hown, hst, hdup, hopp, refreshStatus, PostInv]
          refine ⟨hnl.filter _, ?_, ?_, hcd, ?_, ?_, hod, fun e => hown e.symm⟩
          · exact List.Nodup.append hnd (List.nodup_singleton u)
              (by simpa [List.disjoint_singleton] using hdup)
          · have h4 := length_filter_ne_of_mem hnl hopp
            have h5 : 0 < p.likedBy.length := List.length_pos_of_mem hopp
            rw [hcl]
            omega
          · intro v hv hvu
            exact ⟨hdisj v hv, hvu⟩
          · intro hmem
            exact absurd hmem hol
        · simp [applyDislike, hown, hst, hdup, hopp, refreshStatus, PostInv]
          refine ⟨hnl, ?_, hcl, hcd, ?_, hol, hod, fun e => hown e.symm⟩
          · exact List.Nodup.append hnd (List.nodup_singleton u)
              (by simpa [List.disjoint_singleton] using hdup)
          · intro v hv
            exact ⟨hdisj v hv, fun e => hopp (e ▸ hv)⟩
    · simpa [applyDislike, hown, hst, refreshStatus, PostInv] using
        ⟨hnl, hnd, hcl, hcd, hdisj, hol, hod⟩

/-- Any sequence of vote requests preserves the vote-state invariants. -/
theorem runVotes_inv (ops : List (VoteKind × String × Int)) :
    ∀ p : Post, PostInv p → PostInv (runVotes p ops) := by
  induction ops with
  | nil => intro p h; exact h
  | cons op t ih =>
    intro p h
    have h1 : PostInv (voteStep p op) := by
      rcases op with ⟨k, u, now⟩
      cases k
      · exact applyLike_inv p u now h
      · exact applyDislike_inv p u now h
    exact ih (voteStep p op) h1

/-- C3: after any sequence of like/dislike requests (successful or failed)
starting from a post satisfying the invariants, the stored post still
satisfies I1 (each counter equals the size of its voter set), I2 (the two
voter sets are disjoint) and I3 (the owner appears in neither set). -/
theorem vote_sequence_invariants (p : Post)
    (ops : List (VoteKind × String × Int)) (h : PostInv p) :
    (runVotes p ops).likesCount = ((runVotes p ops).likedBy.length : Int) ∧
    (runVotes p ops).dislikesCount = ((runVotes p ops).dislikedBy.length : Int) ∧
    (∀ u ∈ (runVotes p ops).likedBy, u ∉ (runVotes p ops).dislikedBy) ∧
    (runVotes p ops).owner ∉ (runVotes p ops).likedBy ∧
    (runVotes p ops).owner ∉ (runVotes p ops).dislikedBy := by
  obtain ⟨_, _, h1, h2, h3, h4, h5⟩ := runVotes_inv ops p h
  exact ⟨h1, h2, h3, h4, h5⟩

/-- Witness for C3: a like followed by a vote switch and a failed duplicate,
on a concrete post. -/
theorem vote_sequence_invariants_witness :
    PostInv alicePost ∧
    ((runVotes alicePost
        [(VoteKind.like, "bob", 10), (VoteKind.dislike, "bob", 20),
         (VoteKind.dislike, "bob", 30), (VoteKind.like, "alice", 40)]).likesCount =
      ((runVotes alicePost
        [(VoteKind.like, "bob", 10), (VoteKind.dislike, "bob", 20),
         (VoteKind.dislike, "bob", 30), (VoteKind.like, "alice", 40)]).likedBy.length : Int) ∧
    (runVotes alicePost
        [(VoteKind.like, "bob", 10), (VoteKind.dislike, "bob", 20),
         (VoteKind.dislike, "bob", 30), (VoteKind.like, "alice", 40)]).dislikesCount =
      ((runVotes alicePost
        [(VoteKind.like, "bob", 10), (VoteKind.dislike, "bob", 20),
         (VoteKind.dislike, "bob", 30), (VoteKind.like, "alice", 40)]).dislikedBy.length : Int) ∧
    (∀ u ∈ (runVotes alicePost
        [(VoteKind.like, "bob", 10), (VoteKind.dislike, "bob", 20),
         (VoteKind.dislike, "bob", 30), (VoteKind.like, "alice", 40)]).likedBy,
      u ∉ (runVotes alicePost
        [(VoteKind.like, "bob", 10), (VoteKind.dislike, "bob", 20),
         (VoteKind.dislike, "bob", 30), (VoteKind.like, "alice", 40)]).dislikedBy) ∧
    (runVotes alicePost
        [(VoteKind.like, "bob", 10), (VoteKind.dislike, "bob", 20),
         (VoteKind.dislike, "bob", 30), (VoteKind.like, "alice", 40)]).owner ∉
      (runVotes alicePost
        [(VoteKind.like, "bob", 10), (VoteKind.dislike, "bob", 20),
         (VoteKind.dislike, "bob", 30), (VoteKind.like, "alice", 40)]).likedBy ∧
    (runVotes alicePost
        [(VoteKind.like, "bob", 10), (VoteKind.dislike, "bob", 20),
         (VoteKind.dislike, "bob", 30), (VoteKind.like, "alice", 40)]).owner ∉
      (runVotes alicePost
        [(VoteKind.like, "bob", 10), (VoteKind.dislike, "bob", 20),
         (VoteKind.dislike, "bob", 30), (VoteKind.like, "alice", 40)]).dislikedBy) :=
  ⟨by decide,
   vote_sequence_invariants alicePost
     [(VoteKind.like, "bob", 10), (VoteKind.dislike, "bob", 20),
      (VoteKind.dislike, "bob", 30), (VoteKind.like, "alice", 40)] (by decide)⟩

/-- C4: on a live post, a non-owner user who currently holds the opposite
vote kind succeeds in switching it: a dislike from a user in `likedBy`
removes the user from `likedBy`, decrements `likesCount` back to its
pre-like value, adds the user to `dislikedBy` and increments
`dislikesCount`, leaving the user in `dislikedBy` only — and symmetrically
for switching a dislike to a like. -/
theorem vote_toggle_switch (p : Post) (u : String) (now : Int)
    (h : PostInv p) (hlive : computeStatus p.expiresAt now = .Live)
    (hown : u ≠ p.owner) :
    (u ∈ p.likedBy →
      (applyDislike p u now).1 =
        .ok (p.likesCount - 1) (p.dislikesCount + 1) ∧
      u ∉ (applyDislike p u now).2.likedBy ∧
      u ∈ (applyDislike p u now).2.dislikedBy ∧
      (applyDislike p u now).2.likesCount = p.likesCount - 1 ∧
      (applyDislike p u now).2.dislikesCount = p.dislikesCount + 1) ∧
    (u ∈ p.dislikedBy →
      (applyLike p u now).1 =
        .ok (p.likesCount + 1) (p.dislikesCount - 1) ∧
      u ∈ (applyLike p u now).2.likedBy ∧
      u ∉ (applyLike p u now).2.dislikedBy ∧
      (applyLike p u now).2.likesCount = p.likesCount + 1 ∧
      (applyLike p u now).2.dislikesCount = p.dislikesCount - 1) := by
  obtain ⟨hnl, hnd, hcl, hcd, hdisj, hol, hod⟩ := h
  constructor
  · intro hmem
    have hdup : u ∉ p.dislikedBy := hdisj u hmem
    have hlen : 0 < p.likedBy.length := List.length_pos_of_mem hmem
    have hmax : max 0 (p.likesCount - 1) = p.likesCount - 1 := by
      rw [hcl]; omega
    simp [applyDislike, hown, hlive, hdup, hmem, refreshStatus, hmax,
      mem_filter_ne]
  · intro hmem
    have hdup : u ∉ p.likedBy := fun hc => hdisj u hc hmem
    have hlen : 0 < p.dislikedBy.length := List.length_pos_of_mem hmem
    have hmax : max 0 (p.dislikesCount - 1) = p.dislikesCount - 1 := by
      rw [hcd]; omega
    simp [applyLike, hown, hlive, hdup, hmem, refreshStatus, hmax,
      mem_filter_ne]

/-- Witness for C4: on `votedPost`, `bob` (holder of a like) switches to a
dislike and `carol` (holder of a dislike) switches to a like. -/
theorem vote_toggle_switch_witness :
    PostInv votedPost ∧ computeStatus votedPost.expiresAt 10 = .Live ∧
    "bob" ≠ votedPost.owner ∧ "carol" ≠ votedPost.owner ∧
    (applyDislike votedPost "bob" 10).1 = .ok 0 2 ∧
    "bob" ∉ (applyDislike votedPost "bob" 10).2.likedBy ∧
    "bob" ∈ (applyDislike votedPost "bob" 10).2.dislikedBy ∧
    (applyLike votedPost "carol" 10).1 = .ok 2 0 ∧
    "carol" ∈ (applyLike votedPost "carol" 10).2.likedBy ∧
    "carol" ∉ (applyLike votedPost "carol" 10).2.dislikedBy := by
  have hb := (vote_toggle_switch votedPost "bob" 10 (by decide) (by decide)
    (by decide)).1 (by decide)
  have hc := (vote_toggle_switch votedPost "carol" 10 (by decide) (by decide)
    (by decide)).2 (by decide)
  refine ⟨by decide, by decide, by decide, by decide, ?_, hb.2.1, hb.2.2.1,
    ?_, hc.2.1, hc.2.2.1⟩
  · simpa [votedPost] using hb.1
  · simpa [votedPost] using hc.1

/-- C5: on a live post, a non-owner user who already holds the requested
vote kind receives the distinct duplicate outcome and the vote state
(`likedBy`, `dislikedBy`, `likesCount`, `dislikesCount`) is unchanged. -/
theorem duplicate_vote_rejected (p : Post) (u : String) (now : Int)
    (hlive : computeStatus p.expiresAt now = .Live) (hown : u ≠ p.owner) :
    (u ∈ p.likedBy →
      (applyLike p u now).1 = .duplicate ∧
      (applyLike p u now).2.likedBy = p.likedBy ∧
      (applyLike p u now).2.dislikedBy = p.dislikedBy ∧
      (applyLike p u now).2.likesCount = p.likesCount ∧
      (applyLike p u now).2.dislikesCount = p.dislikesCount) ∧
    (u ∈ p.dislikedBy →
      (applyDislike p u now).1 = .duplicate ∧
      (applyDislike p u now).2.likedBy = p.likedBy ∧
      (applyDislike p u now).2.dislikedBy = p.dislikedBy ∧
      (applyDislike p u now).2.likesCount = p.likesCount ∧
      (applyDislike p u now).2.dislikesCount = p.dislikesCount) := by
  constructor
  · intro hmem
    simp [applyLike, hown, hlive, hmem, refreshStatus]
  · intro hmem
    simp [applyDislike, hown, hlive, hmem, refreshStatus]

/-- Witness for C5: `bob` repeats their like and `carol` their dislike on
`votedPost`; both get the duplicate outcome and the state is unchanged. -/
theorem duplicate_vote_rejected_witness :
    computeStatus votedPost.expiresAt 10 = .Live ∧
    "bob" ≠ votedPost.owner ∧ "carol" ≠ votedPost.owner ∧
    (applyLike votedPost "bob" 10).1 = .duplicate ∧
    (applyLike votedPost "bob" 10).2.likedBy = votedPost.likedBy ∧
    (applyLike votedPost "bob" 10).2.dislikedBy = votedPost.dislikedBy ∧
    (applyDislike votedPost "carol" 10).1 = .duplicate ∧
    (applyDislike votedPost "carol" 10).2.likesCount = votedPost.likesCount ∧
    (applyDislike votedPost "carol" 10).2.dislikesCount = votedPost.dislikesCount := by
  have hb := (duplicate_vote_rejected votedPost "bob" 10 (by decide)
    (by decide)).1 (by decide)
  have hc := (duplicate_vote_rejected votedPost "carol" 10 (by decide)
    (by decide)).2 (by decide)
  exact ⟨by decide, by decide, by decide, hb.1, hb.2.1, hb.2.2.1,
    hc.1, hc.2.2.2.1, hc.2.2.2.2⟩

/-- C1 counterexample: on an expired post owned by `alice`, a like or
dislike request from `alice` herself returns the self-vote outcome, not the
expired outcome, because the routes check ownership before the status gate. -/
theorem owner_expired_vote_counterexample :
    computeStatus ({ alicePost with expiresAt := 5 } : Post).expiresAt 10 = .Expired ∧
    (applyLike { alicePost with expiresAt := 5 } "alice" 10).1 = .selfVote ∧
    (applyLike { alicePost with expiresAt := 5 } "alice" 10).1 ≠ .expired ∧
    (applyDislike { alicePost with expiresAt := 5 } "alice" 10).1 = .selfVote ∧
    (applyDislike { alicePost with expiresAt := 5 } "alice" 10).1 ≠ .expired := by
  decide

/-- C1 (amended): the self-vote check precedes the Live-status gate: the
owner of a post always receives the self-vote outcome, even when the post is
expired; for every non-owner, an expired post yields the expired outcome
(before the duplicate check). -/
theorem vote_precondition_order (p : Post) (u : String) (now : Int) :
    (u = p.owner →
      (applyLike p u now).1 = .selfVote ∧ (applyDislike p u now).1 = .selfVote) ∧
    (u ≠ p.owner → computeStatus p.expiresAt now = .Expired →
      (applyLike p u now).1 = .expired ∧ (applyDislike p u now).1 = .expired) := by
  constructor
  · intro h
    simp [applyLike, applyDislike, h]
  · intro h hexp
    simp [applyLike, applyDislike, h, hexp]

/-- Witness for C1 (amended): the expired post owned by `alice`, voted on by
`alice` herself and by the non-owner `bob`. -/
theorem vote_precondition_order_witness :
    ("alice" = ({ alicePost with expiresAt := 5 } : Post).owner ∧
      (applyLike { alicePost with expiresAt := 5 } "alice" 10).1 = .selfVote) ∧
    ("bob" ≠ ({ alicePost with expiresAt := 5 } : Post).owner ∧
      computeStatus ({ alicePost with expiresAt := 5 } : Post).expiresAt 10 = .Expired ∧
      (applyLike { alicePost with expiresAt := 5 } "bob" 10).1 = .expired ∧
      (applyDislike { alicePost with expiresAt := 5 } "bob" 10).1 = .expired) := by
  refine ⟨⟨by decide, ?_⟩, by decide, by decide, ?_, ?_⟩
  · exact ((vote_precondition_order { alicePost with expiresAt := 5 } "alice" 10).1
      (by decide)).1
  · exact ((vote_precondition_order { alicePost with expiresAt := 5 } "bob" 10).2
      (by decide) (by decide)).1
  · exact ((vote_precondition_order { alicePost with expiresAt := 5 } "bob" 10).2
      (by decide) (by decide)).2

/-- C2 counterexample: a supplied limit of `-1` yields an effective limit of
`-1`, not the `0` demanded by clamping into `[0, 50]`. -/
theorem expired_history_limit_counterexample :
    expiredHistoryLimit (-1) = -1 ∧ clampedLimitSpec (-1) = 0 ∧
    expiredHistoryLimit (-1) ≠ clampedLimitSpec (-1) := by
  decide

/-- C2 (amended): the effective limit of `expiredHistory` is `min(limit, 50)`
— it agrees with the spec's clamp into `[0, 50]` only for nonnegative
supplied limits, a negative limit passing through unchanged — and the
effective skip is `max(skip, 0)`. -/
theorem expired_history_limit_skip (limit skip : Int) :
    (0 ≤ limit → expiredHistoryLimit limit = clampedLimitSpec limit) ∧
    expiredHistoryLimit limit = min limit 50 ∧
    expiredHistorySkip skip = max skip 0 := by
  refine ⟨?_, rfl, rfl⟩
  intro h
  simp [expiredHistoryLimit, clampedLimitSpec, max_eq_left h]

/-- Witness for C2 (amended) at `limit = 7`, `skip = -3`. -/
theorem expired_history_limit_skip_witness :
    (0 : Int) ≤ 7 ∧ expiredHistoryLimit 7 = clampedLimitSpec 7 ∧
    expiredHistorySkip (-3) = 0 := by
  refine ⟨by decide, (expired_history_limit_skip 7 (-3)).1 (by decide), ?_⟩
  have h := (expired_history_limit_skip 7 (-3)).2.2
  rw [h]
  decide

/-- C8: on a live post, a comment request from any user (the owner included
— the definition imposes no ownership check) whose trimmed text has length
between 1 and 500 succeeds, appends exactly one comment record, and leaves
every previously existing comment unaltered; trimmed length 0 or above 500
yields the validation error. -/
theorem comment_append (p : Post) (uId uName text : String) (now : Int)
    (hlive : computeStatus p.expiresAt now = .Live) :
    (1 ≤ (jsTrim text).length → (jsTrim text).length ≤ 500 →
      (appendComment p uId uName text now).1 =
        .ok (p.comments.length + 1) ⟨uId, uName, jsTrim text, now⟩ ∧
      (appendComment p uId uName text now).2.comments =
        p.comments ++ [⟨uId, uName, jsTrim text, now⟩] ∧
      (appendComment p uId uName text now).2.comments.length =
        p.comments.length + 1 ∧
      (appendComment p uId uName text now).2.comments.take p.comments.length =
        p.comments) ∧
    ((jsTrim text).length = 0 ∨ (jsTrim text).length > 500 →
      (appendComment p uId uName text now).1 = .validationError) := by
  constructor
  · intro h1 h2
    have hv : ¬((jsTrim text).length = 0 ∨ 500 < (jsTrim text).length) := by
      omega
    simp [appendComment, hv, hlive, refreshStatus, List.take_left]
  · intro h
    have hv : (jsTrim text).length = 0 ∨ 500 < (jsTrim text).length := by
      omega
    simp [appendComment, hv]

/-- Comparison `postBetter` unfolded: the strict lexicographic comparison on
(likes desc, dislikes desc, creation time desc). -/
theorem postBetter_eq_true_iff {p q : Post} : postBetter p q = true ↔
    (q.likesCount < p.likesCount ∨
      (p.likesCount = q.likesCount ∧ q.dislikesCount < p.dislikesCount) ∨
      (p.likesCount = q.likesCount ∧ p.dislikesCount = q.dislikesCount ∧
        q.createdAt < p.createdAt)) := by
  simp [postBetter]
  tauto

/-- No post sorts strictly before itself. -/
theorem postBetter_irrefl (p : Post) : postBetter p p = false := by
  rw [Bool.eq_false_iff]
  intro h
  rw [postBetter_eq_true_iff] at h
  omega

/-- Comparison `postBetter` is transitive. -/
theorem postBetter_trans {a b c : Post} (h1 : postBetter a b = true)
    (h2 : postBetter b c = true) : postBetter a c = true := by
  rw [postBetter_eq_true_iff] at h1 h2 ⊢
  omega

/-- The complement of `postBetter` is transitive (the comparison is the
strict part of a total preorder). -/
theorem postBetter_false_trans {a b c : Post} (h1 : postBetter a b = false)
    (h2 : postBetter b c = false) : postBetter a c = false := by
  have h1' : ¬ postBetter a b = true := by simp [h1]
  have h2' : ¬ postBetter b c = true := by simp [h2]
  have hg : ¬ postBetter a c = true := by
    rw [postBetter_eq_true_iff] at h1' h2' ⊢
    omega
  simpa using hg

/-- The top-selection scan, started on a champion, returns a post from the
champion-or-list that none of the scanned posts (nor the champion) beats. -/
theorem foldl_topStep_spec (l : List Post) :
    ∀ q : Post, ∃ r : Post, l.foldl topStep (some q) = some r ∧
      (r = q ∨ r ∈ l) ∧ postBetter q r = false ∧
      ∀ x ∈ l, postBetter x r = false := by
  induction l with
  | nil =>
    intro q
    exact ⟨q, rfl, Or.inl rfl, postBetter_irrefl q, by simp⟩
  | cons p t ih =>
    intro q
    by_cases hb : postBetter p q = true
    · obtain ⟨r, hr, hor, hpr, hall⟩ := ih p
      have hstep : (p :: t).foldl topStep (some q) = t.foldl topStep (some p) := by
        simp [topStep, hb]
      refine ⟨r, by rw [hstep]; exact hr, ?_, ?_, ?_⟩
      · rcases hor with h | h
        · exact Or.inr (h ▸ List.mem_cons_self p t)
        · exact Or.inr (List.mem_cons_of_mem p h)
      · rw [Bool.eq_false_iff]
        intro hq
        have htr := postBetter_trans hb hq
        rw [htr] at hpr
        cases hpr
      · intro x hx
        rcases List.mem_cons.1 hx with h | h
        · exact h ▸ hpr
        · exact hall x h
    · have hb' : postBetter p q = false := by simpa using hb
      obtain ⟨r, hr, hor, hqr, hall⟩ := ih q
      have hstep : (p :: t).foldl topStep (some q) = t.foldl topStep (some q) := by
        simp [topStep, hb']
      refine ⟨r, by rw [hstep]; exact hr, ?_, hqr, ?_⟩
      · rcases hor with h | h
        · exact Or.inl h
        · exact Or.inr (List.mem_cons_of_mem p h)
      · intro x hx
        rcases List.mem_cons.1 hx with h | h
        · exact h ▸ postBetter_false_trans hb' hqr
        · exact hall x h

/-- The top selection is empty exactly on the empty list. -/
theorem selectTop_eq_none_iff (l : List Post) : selectTop l = none ↔ l = [] := by
  cases l with
  | nil => simp [selectTop]
  | cons p t =>
    obtain ⟨r, hr, _, _, _⟩ := foldl_topStep_spec t p
    have hstep : selectTop (p :: t) = t.foldl topStep (some p) := by
      simp [selectTop, topStep]
    rw [hstep, hr]
    simp

/-- A selected top post belongs to the list and no list element sorts
strictly before it. -/
theorem selectTop_max (l : List Post) (r : Post) (h : selectTop l = some r) :
    r ∈ l ∧ ∀ x ∈ l, postBetter x r = false := by
  cases l with
  | nil => simp [selectTop] at h
  | cons p t =>
    obtain ⟨r', hr, hor, hpr, hall⟩ := foldl_topStep_spec t p
    have hstep : selectTop (p :: t) = t.foldl topStep (some p) := by
      simp [selectTop, topStep]
    rw [hstep, hr] at h
    injection h with h
    subst h
    constructor
    · rcases hor with h | h
      · exact h ▸ List.mem_cons_self p t
      · exact List.mem_cons_of_mem p h
    · intro x hx
      rcases List.mem_cons.1 hx with h | h
      · exact h ▸ hpr
      · exact hall x h

/-- C7: for a valid topic, the most-active query scans the posts tagged with
the topic with no restriction on status; it answers notFound exactly when no
post carries the topic, and any post it returns is a tagged post that no
other tagged post sorts strictly before under the likes → dislikes →
recency order. -/
theorem mostActive_spec (topic : String) (posts : List Post)
    (hv : topic ∈ TOPICS) :
    (mostActive topic posts = .notFound ↔ ∀ p ∈ posts, topic ∉ p.topics) ∧
    (∀ p, mostActive topic posts = .ok p →
      p ∈ posts ∧ topic ∈ p.topics ∧
      ∀ q ∈ posts, topic ∈ q.topics → postBetter q p = false) := by
  have hnv : ¬ topic ∉ TOPICS := by simpa using hv
  have hcand : ∀ x, x ∈ posts.filter (fun p => p.topics.contains topic) ↔
      x ∈ posts ∧ topic ∈ x.topics := by
    intro x
    simp [List.mem_filter, List.elem_iff]
  constructor
  · constructor
    · intro h
      rcases hsel : selectTop (posts.filter (fun p => p.topics.contains topic))
        with _ | r
      · have hempty : posts.filter (fun p => p.topics.contains topic) = [] :=
          (selectTop_eq_none_iff _).1 hsel
        intro p hp hptop
        have : p ∈ posts.filter (fun p => p.topics.contains topic) :=
          (hcand p).2 ⟨hp, hptop⟩
        rw [hempty] at this
        cases this
      · exfalso
        unfold mostActive at h
        rw [if_neg hnv, hsel] at h
        cases h
    · intro h
      unfold mostActive
      rw [if_neg hnv]
      rcases hsel : selectTop (posts.filter (fun p => p.topics.contains topic))
        with _ | r
      · rfl
      · exfalso
        have hr := selectTop_max _ r hsel
        have := (hcand r).1 hr.1
        exact h r this.1 this.2
  · intro p hp
    unfold mostActive at hp
    rw [if_neg hnv] at hp
    rcases hsel : selectTop (posts.filter (fun p => p.topics.contains topic))
      with _ | r
    · rw [hsel] at hp
      cases hp
    · rw [hsel] at hp
      injection hp with hp
      subst hp
      have hr := selectTop_max _ r hsel
      have hmem := (hcand r).1 hr.1
      refine ⟨hmem.1, hmem.2, ?_⟩
      intro q hq hqtop
      exact hr.2 q ((hcand q).2 ⟨hq, hqtop⟩)

/-- Witness for C7: the spec's example — tie on likes, the higher dislike
count wins — instantiated at topic `Tech`. -/
theorem mostActive_spec_witness :
    "Tech" ∈ TOPICS ∧
    mostActive "Tech" [examplePost1, examplePost2, examplePost3] =
      .ok examplePost2 ∧
    (mostActive "Tech" [examplePost1, examplePost2, examplePost3] = .notFound ↔
      ∀ p ∈ [examplePost1, examplePost2, examplePost3], "Tech" ∉ p.topics) ∧
    (∀ p, mostActive "Tech" [examplePost1, examplePost2, examplePost3] = .ok p →
      p ∈ [examplePost1, examplePost2, examplePost3] ∧ "Tech" ∈ p.topics ∧
      ∀ q ∈ [examplePost1, examplePost2, examplePost3], "Tech" ∈ q.topics →
        postBetter q p = false) := by
  have h := mostActive_spec "Tech" [examplePost1, examplePost2, examplePost3]
    (by decide)
  exact ⟨by decide, by decide, h.1, h.2⟩

/-- Witness for C8: the owner `alice` comments `" hi "` on her own live
post, which already carries one comment; the bad text `""` is rejected. -/
theorem comment_append_witness :
    computeStatus ({ alicePost with
      comments := [⟨"bob", "Bob", "first", 1⟩] } : Post).expiresAt 10 = .Live ∧
    1 ≤ (jsTrim " hi ").length ∧ (jsTrim " hi ").length ≤ 500 ∧
    (appendComment { alicePost with comments := [⟨"bob", "Bob", "first", 1⟩] }
        "alice" "Alice" " hi " 10).1 = .ok 2 ⟨"alice", "Alice", "hi", 10⟩ ∧
    (appendComment { alicePost with comments := [⟨"bob", "Bob", "first", 1⟩] }
        "alice" "Alice" " hi " 10).2.comments =
      [⟨"bob", "Bob", "first", 1⟩, ⟨"alice", "Alice", "hi", 10⟩] ∧
    (appendComment { alicePost with comments := [⟨"bob", "Bob", "first", 1⟩] }
        "alice" "Alice" " hi " 10).2.comments.take 1 =
      [⟨"bob", "Bob", "first", 1⟩] ∧
    (appendComment { alicePost with comments := [⟨"bob", "Bob", "first", 1⟩] }
        "alice" "Alice" "" 10).1 = .validationError := by
  have h := (comment_append
    { alicePost with comments := [⟨"bob", "Bob", "first", 1⟩] }
    "alice" "Alice" " hi " 10 (by decide)).1 (by decide) (by decide)
  have hbad := (comment_append
    { alicePost with comments := [⟨"bob", "Bob", "first", 1⟩] }
    "alice" "Alice" "" 10 (by decide)).2 (by decide)
  refine ⟨by decide, by decide, by decide, ?_, ?_, ?_, hbad⟩
  · exact h.1.trans (by decide)
  · exact h.2.1.trans (by decide)
  · exact h.2.2.2.trans (by decide)

/-- C9: when the create route receives neither an `expiresAt` value nor a
parseable `expiresInMinutes` value, the expiration falls back to 60 minutes
after the current time rather than being rejected. -/
theorem default_expiration (now : Int) :
    resolveExpiresAt none none now = .ok (now + 60 * 60 * 1000) := by
  simp [resolveExpiresAt, toInt]

/-- C10: a syntactically invalid post id makes all three interaction routes
answer the invalid-id outcome, whatever the store holds and whoever acts —
so no not-found, self-vote or expired outcome is ever produced for it. -/
theorem invalid_id_short_circuit (id : String) (store : Option Post)
    (u uName text : String) (now : Int) (h : isValidObjectId id = false) :
    likeRoute id store u now = .invalidId ∧
    dislikeRoute id store u now = .invalidId ∧
    commentRoute id store u uName text now = .invalidId := by
  refine ⟨?_, ?_, ?_⟩ <;> simp [likeRoute, dislikeRoute, commentRoute, h]

/-- Witness for C10: the malformed id `"xyz"` against a store that does hold
a post (on which every other precondition would fail differently). -/
theorem invalid_id_short_circuit_witness :
    isValidObjectId "xyz" = false ∧
    likeRoute "xyz" (some alicePost) "alice" 10 = .invalidId ∧
    dislikeRoute "xyz" (some alicePost) "alice" 10 = .invalidId ∧
    commentRoute "xyz" (some alicePost) "alice" "Alice" "hi" 10 = .invalidId := by
  have h := invalid_id_short_circuit "xyz" (some alicePost) "alice" "Alice"
    "hi" 10 (by decide)
  exact ⟨by decide, h.1, h.2.1, h.2.2⟩
